import Mathlib

/-!
# Verification of the pdf-spread-viewer server (`src/server.py`)

A shallow embedding of the server's data model and algorithms, with theorems
settling the specification claims about it.

Modelling conventions:
* Python machine integers are `Int`; sizes and list lengths are `Nat`.
* Python `float` arithmetic is modelled by exact rationals (`ℚ`); where a claim
  depends on the low-order rounding behaviour of IEEE binary64 (the DPI
  derivation), the correctly-rounded binary64 operations are modelled
  explicitly by `fl64`.
* Delegated library calls (rasterization, dominant-colour extraction, the WCAG
  contrast-ratio formula) are oracle parameters carried by the document model,
  as the spec treats them as black boxes.
* Fallible code returns `Except`; a Python exception propagating out of a
  function is an `Except.error` value.
-/

namespace PdfSpreadViewer

/-! ## Colours (`_color_int_to_rgb`, server.py lines 27-60) -/

/-- An RGB triple with components in 0..255. -/
structure RGB where
  r : Int
  g : Int
  b : Int
deriving DecidableEq

/-- The function `_color_int_to_rgb` (server.py lines 27-60) on the packed-integer branch used
for PyMuPDF span colours: negative values are clamped to 0, then the three bytes
are extracted with shifts and masks.  (The tuple/list branches of the Python
function decode other library colour encodings; spans in this model carry the
packed-integer encoding.) -/
def color_int_to_rgb (colorValue : Int) : RGB :=
  let colorInt := if colorValue < 0 then 0 else colorValue
  { r := (colorInt / 65536) % 256
  , g := (colorInt / 256) % 256
  , b := colorInt % 256 }

/-! ## WCAG classification (server.py lines 144-149) -/

/-- The four WCAG compliance flags computed for a region. -/
structure WcagCompliance where
  aaNormalText : Bool
  aaLargeText : Bool
  aaaNormalText : Bool
  aaaLargeText : Bool
deriving DecidableEq

/-- The `wcag_compliance` dictionary built in `analyze_page_contrast`
(server.py lines 144-149). -/
def wcagComplianceOf (contrastRatio : ℚ) : WcagCompliance :=
  { aaNormalText := contrastRatio ≥ 4.5
  , aaLargeText := contrastRatio ≥ 3.0
  , aaaNormalText := contrastRatio ≥ 7.0
  , aaaLargeText := contrastRatio ≥ 4.5 }

/-! ## IEEE binary64 model for the DPI derivation

`create_spread_image` and `analyze_page_contrast` compute
`dpi = int(200 * (quality / 100))` with Python floats.  `quality / 100` and the
subsequent multiplication are correctly rounded binary64 operations
(round-to-nearest, ties to even); `int` truncates toward zero.  We model the
rounding exactly over `ℚ` for arguments in the normal range. -/

/-- Round a rational to the nearest integer, ties going to the even integer
(the IEEE-754 default tie-breaking rule). -/
def roundTiesToEven (x : ℚ) : Int :=
  let f := ⌊x⌋
  let frac := x - f
  if frac < 1/2 then f
  else if 1/2 < frac then f + 1
  else if f % 2 = 0 then f else f + 1

/-- Two to the power `n` for an integer exponent `n`, as a rational. -/
def pow2z (n : Int) : ℚ :=
  (2 : ℚ) ^ n.toNat / (2 : ℚ) ^ (-n).toNat

/-- Largest `e` with `2 ^ e ≤ x`, searched over `-32 ≤ e < 32` (ample for every
value arising in the DPI computation). -/
def binadeExpAux : Nat → Int → ℚ → ℚ → Int
  | 0, e, _, _ => e
  | n + 1, e, p, x => if p * 2 ≤ x then binadeExpAux n (e + 1) (p * 2) x else e

/-- Binade exponent of a positive rational in `[2 ^ (-32), 2 ^ 32)`. -/
def binadeExp (x : ℚ) : Int :=
  binadeExpAux 64 (-32) (pow2z (-32)) x

/-- Correctly rounded IEEE binary64 value of a rational (round to nearest, ties
to even), valid for arguments in the normal, non-overflowing range used here. -/
def fl64 (x : ℚ) : ℚ :=
  if x = 0 then 0
  else
    let e := binadeExp |x|
    let s := pow2z (52 - e)
    let m := roundTiesToEven (|x| * s)
    (if x < 0 then -1 else 1) * ((m : ℚ) / s)

/-- Python `int()` on a float value: truncation toward zero. -/
def truncInt (x : ℚ) : Int :=
  if x < 0 then -⌊-x⌋ else ⌊x⌋

/-- The value `int(base_dpi * (quality / 100))` with `base_dpi = 200`, as computed with
Python floats in both `analyze_page_contrast` (server.py lines 78-79) and
`create_spread_image` (server.py lines 210-211). -/
def rawDpi (quality : Int) : Int :=
  truncInt (fl64 ((200 : ℚ) * fl64 ((quality : ℚ) / 100)))

/-- The compositor DPI: `dpi = max(dpi, 50)` (server.py line 214). -/
def spreadDpi (quality : Int) : Int :=
  max (rawDpi quality) 50

/-- The analyzer DPI: `dpi = max(dpi, 72)` (server.py line 80). -/
def analyzeDpi (quality : Int) : Int :=
  max (rawDpi quality) 72

/-- The value of `int(200 * (quality / 100))` for qualities 1..100: equal to
`2 * quality` except at 29, 57 and 58, where binary64 rounding lands just below
the integer and truncation loses one. -/
def rawDpiTable (quality : Int) : Int :=
  if quality = 29 ∨ quality = 57 ∨ quality = 58 then 2 * quality - 1 else 2 * quality

/-! ## Images and the spread compositor (`create_spread_image`, server.py lines 195-254) -/

/-- A rasterized RGB image: dimensions plus a pixel map (indexed x, y from the
top-left corner; the map is total, values outside the bounds are irrelevant). -/
structure Img where
  width : Nat
  height : Nat
  pixel : Nat → Nat → RGB

/-- The canvas background colour `'black'` (server.py line 243). -/
def black : RGB := ⟨0, 0, 0⟩

/-- The canvas construction of `create_spread_image` (server.py lines 230-249):
`Image.new` with a black background, the left image pasted at
`(outer_border, outer_border)` and the right image pasted at
`(outer_border + left_width + border_width, outer_border)`, where
`outer_border = border_width`.  The two pasted rectangles are disjoint, so the
paste order is immaterial; the later (right) paste is checked first. -/
def composeSpread (leftImg rightImg : Img) (borderWidth : Nat) : Img :=
  let maxHeight := max leftImg.height rightImg.height
  let totalWidth := leftImg.width + borderWidth + rightImg.width
  let outerBorder := borderWidth
  let canvasWidth := totalWidth + outerBorder * 2
  let canvasHeight := maxHeight + outerBorder * 2
  { width := canvasWidth
  , height := canvasHeight
  , pixel := fun x y =>
      if outerBorder + leftImg.width + borderWidth ≤ x ∧
          x < outerBorder + leftImg.width + borderWidth + rightImg.width ∧
          outerBorder ≤ y ∧ y < outerBorder + rightImg.height then
        rightImg.pixel (x - (outerBorder + leftImg.width + borderWidth)) (y - outerBorder)
      else if outerBorder ≤ x ∧ x < outerBorder + leftImg.width ∧
          outerBorder ≤ y ∧ y < outerBorder + leftImg.height then
        leftImg.pixel (x - outerBorder) (y - outerBorder)
      else black }

/-- A PDF document as seen through the rasterization library: a page count and
the rendered image of each (1-based) page at a given DPI. -/
structure PdfDoc where
  pageCount : Nat
  render : Int → Int → Img

/-- The call `pdf2image.convert_from_path(pdf_path, first_page, last_page, dpi)`
(server.py lines 217-222), per the library contract the spec documents in §6:
the rendered images of pages `first_page .. last_page`, clipped to the
document's page range (empty when the clipped range is empty). -/
def convertFromPath (doc : PdfDoc) (firstPage lastPage : Int) (dpi : Int) : List Img :=
  (List.range ((min lastPage (doc.pageCount : Int)) - max firstPage 1 + 1).toNat).map
    (fun (i : Nat) => doc.render (max firstPage 1 + (i : Int)) dpi)

/-- The `ValueError` raised by `create_spread_image` when fewer than two pages
were rasterized (server.py lines 224-225). -/
inductive SpreadError where
  | insufficientPages (leftPage rightPage : Int)
deriving DecidableEq

/-- The function `create_spread_image` (server.py lines 195-254): rasterize the requested
range, raise if fewer than two pages came back, and composite `pages[0]` and
`pages[1]`.  (The final PNG encoding of the canvas is delegated and not
modelled; the result is the composite image itself.) -/
def create_spread_image (doc : PdfDoc) (leftPage rightPage : Int)
    (borderWidth : Nat) (quality : Int) : Except SpreadError Img :=
  let dpi := spreadDpi quality
  match convertFromPath doc leftPage rightPage dpi with
  | p0 :: p1 :: _ => .ok (composeSpread p0 p1 borderWidth)
  | _ => .error (.insufficientPages leftPage rightPage)

/-- The caption text of `handle_view_spread` (server.py line 296). -/
def viewSpreadCaption (leftPage rightPage : Int) : String :=
  "Double-page spread: pages " ++ toString leftPage ++ "-" ++ toString rightPage

/-! ## The contrast analyzer (`analyze_page_contrast`, server.py lines 63-192) -/

/-- Python `str.strip()`: remove leading and trailing whitespace.  Implemented
by structural recursion over the character list so that it is fully
reducible. -/
def pyStrip (s : String) : String :=
  ⟨((s.data.dropWhile Char.isWhitespace).reverse.dropWhile Char.isWhitespace).reverse⟩

/-- A text span as extracted by `page.get_text("dict")`: its text, bounding box
in document points, and declared colour (packed-integer encoding). -/
structure Span where
  text : String
  bbox : Option (ℚ × ℚ × ℚ × ℚ)
  color : Int

/-- A text block: its `type` (0 for text blocks) and its lines, each a list of
spans. -/
structure Block where
  blockType : Int
  lines : List (List Span)

/-- One PDF page as the analyzer sees it after the delegated library calls: the
rasterized image dimensions at the analysis scale, the extracted text blocks,
and the dominant-colour oracle `get_dominant_color` applied to the pixel crop
`(left, top, right, bottom)` of the rasterized page (its packed-integer
result). -/
structure PageData where
  imageWidth : Nat
  imageHeight : Nat
  blocks : List Block
  dominant : Int → Int → Int → Int → Int

/-- A PDF document as the analyzer sees it: one entry per page, where
`Except.error msg` models an opaque library failure raised while processing
that page (rasterization, text extraction, ...), plus the delegated
`wcag_2.wcag2_contrast` oracle on (text colour, background colour). -/
structure FitzDoc where
  pages : List (Except String PageData)
  contrast : RGB → RGB → ℚ

/-- Errors raised by `analyze_page_contrast`: the `ValueError` for an inverted
range (line 76), the `IndexError` for a page range outside the document
(line 88), and opaque failures from delegated library calls. -/
inductive AnalyzeError where
  | invalidRange
  | pageOutOfBounds (leftPage rightPage : Int) (numPages : Nat)
  | libraryFailure (msg : String)
deriving DecidableEq

/-- A pixel-space bounding box (left, top, right, bottom). -/
structure PixBox where
  left : Int
  top : Int
  right : Int
  bottom : Int
deriving DecidableEq

/-- The padded, scaled and clamped pixel box of a span bounding box
(server.py lines 118-129): padding margin `max(1.5, min(6.0, 0.15 * height))`
document points on all sides, mapped to pixels via `scale`, floor/ceil to
integers, clamped to the image bounds. -/
def pixelBox (imageWidth imageHeight : Nat) (scale : ℚ) (x0 y0 x1 y1 : ℚ) : PixBox :=
  let height := y1 - y0
  let paddingPoints := max 1.5 (min 6.0 (0.15 * height))
  { left := max ⌊(x0 - paddingPoints) * scale⌋ 0
  , top := max ⌊(y0 - paddingPoints) * scale⌋ 0
  , right := min ⌈(x1 + paddingPoints) * scale⌉ (imageWidth : Int)
  , bottom := min ⌈(y1 + paddingPoints) * scale⌉ (imageHeight : Int) }

/-- One analyzed text region (the per-span dictionary built at server.py
lines 152-177; the presentational 2-decimal rounding of the stored numbers is
omitted, the classification uses the unrounded ratio exactly as the source
does). -/
structure Region where
  regionIndex : Nat
  text : String
  bboxPdf : ℚ × ℚ × ℚ × ℚ
  bboxPixels : PixBox
  textColor : RGB
  backgroundColor : RGB
  contrastRatio : ℚ
  wcag : WcagCompliance

/-- The per-span body of the analyzer loop (server.py lines 103-177), given the
current `region_counter` value `counter`: returns the retained region, or
`none` when the span is skipped (blank text, missing bounding box,
non-positive point-space extent, or a pixel box under 2 pixels wide or
tall). -/
def processSpan (contrast : RGB → RGB → ℚ) (page : PageData) (scale : ℚ)
    (counter : Nat) (span : Span) : Option Region :=
  if pyStrip span.text = "" then none
  else
    match span.bbox with
    | none => none
    | some (x0, y0, x1, y1) =>
      if x1 - x0 ≤ 0 ∨ y1 - y0 ≤ 0 then none
      else
        let box := pixelBox page.imageWidth page.imageHeight scale x0 y0 x1 y1
        if box.right - box.left < 2 ∨ box.bottom - box.top < 2 then none
        else
          let dominantRgb := color_int_to_rgb (page.dominant box.left box.top box.right box.bottom)
          let textRgb := color_int_to_rgb span.color
          let ratio := contrast textRgb dominantRgb
          some { regionIndex := counter + 1
               , text := pyStrip span.text
               , bboxPdf := (x0, y0, x1, y1)
               , bboxPixels := box
               , textColor := textRgb
               , backgroundColor := dominantRgb
               , contrastRatio := ratio
               , wcag := wcagComplianceOf ratio }

/-- The spans of a page in document text order: text blocks (`type == 0`) in
order, their lines in order, their spans in order (server.py lines 99-103). -/
def spansOf (page : PageData) : List Span :=
  (page.blocks.filter (fun b => b.blockType == 0)).flatMap (fun b => b.lines.flatMap id)

/-- One step of the region accumulation: `region_counter` always equals the
number of regions retained so far. -/
def accumSpan (contrast : RGB → RGB → ℚ) (page : PageData) (scale : ℚ)
    (regions : List Region) (span : Span) : List Region :=
  match processSpan contrast page scale regions.length span with
  | none => regions
  | some reg => regions ++ [reg]

/-- All regions retained for one page, in document text order (server.py
lines 96-177). -/
def pageRegions (contrast : RGB → RGB → ℚ) (page : PageData) (scale : ℚ) : List Region :=
  (spansOf page).foldl (accumSpan contrast page scale) []

/-- The per-page entry of the analyzer's result (server.py lines 179-188). -/
structure PageAnalysis where
  pageNumber : Int
  imageWidth : Nat
  imageHeight : Nat
  dpi : Int
  regions : List Region

/-- The page loop of `analyze_page_contrast` (server.py lines 90-190): process
the listed pages in order; a library failure on any page propagates and
discards the whole analysis. -/
def analyzePages (doc : FitzDoc) (dpi : Int) (scale : ℚ) :
    List Int → Except AnalyzeError (List PageAnalysis)
  | [] => .ok []
  | p :: rest =>
    match doc.pages[(p - 1).toNat]? with
    | none => .error (.libraryFailure "page index out of range")
    | some (.error msg) => .error (.libraryFailure msg)
    | some (.ok page) =>
      match analyzePages doc dpi scale rest with
      | .error e => .error e
      | .ok restAnalyses =>
        .ok ({ pageNumber := p
             , imageWidth := page.imageWidth
             , imageHeight := page.imageHeight
             , dpi := dpi
             , regions := pageRegions doc.contrast page scale } :: restAnalyses)

/-- The 1-based page numbers `left_page .. right_page` inclusive
(`range(left_page, right_page + 1)`). -/
def pageList (leftPage rightPage : Int) : List Int :=
  (List.range (rightPage + 1 - leftPage).toNat).map (fun (i : Nat) => leftPage + (i : Int))

/-- The function `analyze_page_contrast` (server.py lines 63-192): the inverted-range check,
the DPI/scale derivation, the bounds check, then the page loop.  The float
division `dpi / 72.0` is idealized as exact rational division (no claim
depends on its low-order bits). -/
def analyze_page_contrast (doc : FitzDoc) (leftPage rightPage : Int) (quality : Int) :
    Except AnalyzeError (List PageAnalysis) :=
  if leftPage > rightPage then .error .invalidRange
  else
    let dpi := analyzeDpi quality
    let scale : ℚ := (dpi : ℚ) / 72
    if leftPage < 1 ∨ rightPage > (doc.pages.length : Int) then
      .error (.pageOutOfBounds leftPage rightPage doc.pages.length)
    else analyzePages doc dpi scale (pageList leftPage rightPage)

/-! ## The report aggregator (`handle_get_wcag_report`, server.py lines 393-490) -/

/-- Whether a region fails at least one of the four WCAG thresholds
(server.py lines 437-443). -/
def regionFails (reg : Region) : Bool :=
  !reg.wcag.aaNormalText || !reg.wcag.aaLargeText ||
    !reg.wcag.aaaNormalText || !reg.wcag.aaaLargeText

/-- A non-compliant region as recorded in the report (server.py
lines 444-464). -/
structure ReportRegion where
  regionIndex : Nat
  text : String
  contrastRatio : ℚ
  textColor : RGB
  backgroundColor : RGB
  failAaNormal : Bool
  failAaLarge : Bool
  failAaaNormal : Bool
  failAaaLarge : Bool
  bboxPdf : ℚ × ℚ × ℚ × ℚ
  bboxPixels : PixBox

/-- The report record built for one non-compliant region (server.py
lines 444-464). -/
def toReportRegion (reg : Region) : ReportRegion :=
  { regionIndex := reg.regionIndex
  , text := pyStrip reg.text
  , contrastRatio := reg.contrastRatio
  , textColor := reg.textColor
  , backgroundColor := reg.backgroundColor
  , failAaNormal := !reg.wcag.aaNormalText
  , failAaLarge := !reg.wcag.aaLargeText
  , failAaaNormal := !reg.wcag.aaaNormalText
  , failAaaLarge := !reg.wcag.aaaLargeText
  , bboxPdf := reg.bboxPdf
  , bboxPixels := reg.bboxPixels }

/-- One entry of `pages_with_issues` (server.py lines 466-471). -/
structure PageIssues where
  pageNumber : Int
  regionsCount : Nat
  regions : List ReportRegion

/-- The `pages_with_issues` contribution of one analyzed page (server.py
lines 430-472): the page's non-compliant regions, recorded only when there is
at least one. -/
def pageIssueEntry (pa : PageAnalysis) : List PageIssues :=
  let ncr := (pa.regions.filter regionFails).map toReportRegion
  if ncr.isEmpty then [] else [⟨pa.pageNumber, ncr.length, ncr⟩]

/-- The report of `handle_get_wcag_report` (server.py lines 412-420; the
`pdf_path` echo is omitted). -/
structure WcagReport where
  totalPages : Nat
  startPage : Int
  pagesAnalyzed : Int
  nonCompliantRegionsCount : Nat
  pagesWithIssues : List PageIssues

/-- Python `range(start, stop, 2)`. -/
def rangeStep2 (start stop : Int) : List Int :=
  (List.range ((stop - start + 1) / 2).toNat).map (fun (i : Nat) => start + 2 * (i : Int))

/-- The (left, right) page pairs the report loop walks (server.py
lines 423-424): `left` ranges over `range(start_page, total_pages + 1, 2)` and
`right = min(left + 1, total_pages)`. -/
def reportPairs (startPage : Int) (totalPages : Nat) : List (Int × Int) :=
  (rangeStep2 startPage ((totalPages : Int) + 1)).map
    (fun l => (l, min (l + 1) (totalPages : Int)))

/-- Modelled from the spec (§4.3): the page pairs as the spec words them —
`[startPage, startPage+1], [startPage+2, startPage+3], ...` with the final
pair a singleton when the remaining range is odd. -/
def specPairs (startPage : Int) (totalPages : Nat) : List (Int × Int) :=
  (rangeStep2 startPage ((totalPages : Int) + 1)).map
    (fun l => if l + 1 ≤ (totalPages : Int) then (l, l + 1) else (l, l))

/-- The body of the inner page loop of the report (server.py lines 430-472):
record the page's non-compliant regions when there are any, and add their
number to the running count. -/
def reportPageStep (acc2 : WcagReport) (pa : PageAnalysis) : WcagReport :=
  let ncr := (pa.regions.filter regionFails).map toReportRegion
  if ncr.isEmpty then acc2
  else
    { acc2 with
      pagesWithIssues := acc2.pagesWithIssues ++ [⟨pa.pageNumber, ncr.length, ncr⟩]
    , nonCompliantRegionsCount := acc2.nonCompliantRegionsCount + ncr.length }

/-- The body of the report loop for one page pair (server.py lines 423-476):
count the pages of the pair as analyzed, run the analyzer, and on success fold
the pages into the report; any analyzer failure leaves the report unchanged
(the `except ... continue`). -/
def reportStepPair (doc : FitzDoc) (quality : Int) (acc : WcagReport)
    (pr : Int × Int) : WcagReport :=
  let acc1 := { acc with pagesAnalyzed := acc.pagesAnalyzed + (pr.2 - pr.1 + 1) }
  match analyze_page_contrast doc pr.1 pr.2 quality with
  | .error _ => acc1
  | .ok pages => pages.foldl reportPageStep acc1

/-- The `pages_with_issues` entries one page pair contributes to the report: an
analyzer failure on the pair contributes nothing, a successful analysis
contributes the entries of its pages. -/
def pairIssues (doc : FitzDoc) (quality : Int) (pr : Int × Int) : List PageIssues :=
  match analyze_page_contrast doc pr.1 pr.2 quality with
  | .error _ => []
  | .ok pages => pages.flatMap pageIssueEntry

/-- The handler `handle_get_wcag_report` after path validation (server.py lines 409-488):
walk the page pairs, accumulate the report, and finally sort
`pages_with_issues` by page number (Python's stable `list.sort`, modelled by
the stable `List.mergeSort`). -/
def handle_get_wcag_report (doc : FitzDoc) (startPage : Int) (quality : Int) : WcagReport :=
  let totalPages := doc.pages.length
  let init : WcagReport :=
    { totalPages := totalPages
    , startPage := startPage
    , pagesAnalyzed := 0
    , nonCompliantRegionsCount := 0
    , pagesWithIssues := [] }
  let report := (reportPairs startPage totalPages).foldl (reportStepPair doc quality) init
  { report with
    pagesWithIssues :=
      report.pagesWithIssues.mergeSort (fun a b => a.pageNumber ≤ b.pageNumber) }

/-! ## The request loop (`main`, server.py lines 654-698) -/

/-- One input line as the loop sees it: either a line `json.loads` rejects, or
a parsed request object with its `method` and optional `id`.  (Ids are
modelled as integers; only presence and echoing matter here.) -/
inductive InLine where
  | malformed
  | request (method : String) (id : Option Int)

/-- One output line of the loop: a result response for a request id, or a
JSON-RPC parse-error response (code -32700) with the id the handler managed to
supply. -/
inductive OutMsg where
  | result (id : Int) (method : String)
  | parseError (id : Int)
deriving DecidableEq

/-- The `for line in sys.stdin` loop of `main` (server.py lines 656-698).
`requestIdVar` is the Python local `request_id`: `none` while the variable has
never been assigned, `some v` once bound (`v = none` models a JSON `null` or
absent id).  On a malformed line the `json.JSONDecodeError` handler evaluates
`request_id if request_id is not None else 0`; if `request_id` is still
unbound this raises `UnboundLocalError`, which no clause of the `try` catches,
so the loop terminates with no response (the `Bool` result records whether the
loop crashed this way).  Notifications (requests without an id) produce no
response line. -/
def mainLoop : List InLine → Option (Option Int) → List OutMsg × Bool
  | [], _ => ([], false)
  | InLine.malformed :: rest, requestIdVar =>
    match requestIdVar with
    | none => ([], true)
    | some idv =>
      let out := OutMsg.parseError (idv.getD 0)
      let next := mainLoop rest (some idv)
      (out :: next.1, next.2)
  | InLine.request m id :: rest, _ =>
    let next := mainLoop rest (some id)
    match id with
    | some i => (OutMsg.result i m :: next.1, next.2)
    | none => next

/-- The function `main` (server.py lines 654-698): run the loop on the input lines with
`request_id` initially unbound, returning the response lines written and
whether the loop crashed. -/
def mainServer (lines : List InLine) : List OutMsg × Bool :=
  mainLoop lines none

/-! ## Concrete fixtures used by witness theorems -/

/-- A small concrete image. -/
def imgA : Img := ⟨2, 3, fun _ _ => ⟨10, 20, 30⟩⟩

/-- Another small concrete image. -/
def imgB : Img := ⟨4, 1, fun _ _ => ⟨40, 50, 60⟩⟩

/-- A one-page document for the rasterization library. -/
def pdfDocOne : PdfDoc := ⟨1, fun _ _ => imgA⟩

/-- A five-page document whose rendered pages are distinguishable by width. -/
def pdfDocFive : PdfDoc := ⟨5, fun p dpi => ⟨p.toNat, dpi.toNat, fun _ _ => black⟩⟩

/-- A concrete text span. -/
def spanA : Span := ⟨"Hi", some (0, 0, 10, 5), 255⟩

/-- A concrete page with one text block holding one span, on a white
background. -/
def pageA : PageData := ⟨200, 100, [⟨0, [[spanA]]⟩], fun _ _ _ _ => 16777215⟩

/-- A two-page analyzer document whose contrast oracle always reports 2:1. -/
def fitzDocA : FitzDoc := ⟨[.ok pageA, .ok pageA], fun _ _ => 2⟩

/-- A three-page analyzer document whose second page fails to rasterize. -/
def fitzDocB : FitzDoc := ⟨[.ok pageA, .error "rasterization failed", .ok pageA], fun _ _ => 2⟩

/-- A concrete failing region (all four compliance flags false). -/
def regionA : Region :=
  { regionIndex := 1
  , text := "Hi"
  , bboxPdf := (0, 0, 10, 5)
  , bboxPixels := ⟨0, 0, 16, 10⟩
  , textColor := ⟨0, 0, 255⟩
  , backgroundColor := ⟨255, 255, 255⟩
  , contrastRatio := 2
  , wcag := ⟨false, false, false, false⟩ }

/-- A concrete page analysis holding `regionA`. -/
def paA : PageAnalysis := ⟨1, 200, 100, 100, [regionA]⟩

/-! ## Theorems -/

/-- C1 (code evaluated at the failing input): when the very first input line is
malformed JSON the loop emits no response and terminates — the
`json.JSONDecodeError` handler reads the still-unbound local `request_id` and
the resulting `UnboundLocalError` is not caught.  By contrast, a malformed
line arriving after a successfully parsed request does produce a -32700
parse-error response (with the previous request's id) and the loop
continues. -/
theorem c1_first_malformed_line_crashes :
    mainServer [InLine.malformed] = ([], true) ∧
    mainServer [InLine.request "initialize" (some 1), InLine.malformed,
        InLine.request "tools/list" (some 2)] =
      ([OutMsg.result 1 "initialize", OutMsg.parseError 1, OutMsg.result 2 "tools/list"],
        false) := by
  exact ⟨rfl, rfl⟩

/-- Helper: `round(200 * q / 100)` in exact arithmetic is `2 * q`. -/
theorem round_two_hundredths (q : Int) : round ((200 * (q : ℚ)) / 100) = 2 * q := by
  have h : (200 * (q : ℚ)) / 100 = ((2 * q : ℤ) : ℚ) := by push_cast; ring
  rw [h, round_intCast]

set_option maxRecDepth 40000 in
set_option maxHeartbeats 4000000 in
unseal Rat.add Rat.sub Rat.mul Rat.inv Rat.ofScientific in
/-- Helper: the binary64 value of `int(200 * (q / 100))` for each quality
1..100, verified by evaluating the rounding model. -/
theorem rawDpi_table_aux :
    ∀ n : Nat, n < 100 → rawDpi ((n : Int) + 1) = rawDpiTable ((n : Int) + 1) := by
  decide

/-- Helper: `rawDpi` agrees with `rawDpiTable` on qualities 1..100. -/
theorem rawDpi_eq_table (q : Int) (h1 : 1 ≤ q) (h2 : q ≤ 100) :
    rawDpi q = rawDpiTable q := by
  have hq : ((q - 1).toNat : Int) + 1 = q := by omega
  have h := rawDpi_table_aux (q - 1).toNat (by omega)
  rwa [hq] at h

unseal Rat.add Rat.sub Rat.mul Rat.inv Rat.ofScientific in
/-- C3 counterexample: at quality 29, the compositor DPI the source's float
arithmetic produces is 57 (binary64 computes `200 * (29 / 100)` as
slightly less than 58 and `int` truncates), not `max(50, round(200*29/100)) =
58` as the claim states. -/
theorem c3_counterexample_quality29 :
    spreadDpi 29 = 57 ∧ max 50 (round ((200 * (29 : ℚ)) / 100)) = 58 ∧
    spreadDpi 29 ≠ max 50 (round ((200 * (29 : ℚ)) / 100)) := by
  have hr : round ((200 * (29 : ℚ)) / 100) = 58 := by norm_num [round_eq]
  refine ⟨by decide, ?_, ?_⟩
  · rw [hr]; decide
  · rw [hr]; decide

/-- C3 (amended): for every integer quality 1..100 outside {29, 57, 58}, the
compositor DPI is `max(50, round(200*q/100))` and the analyzer DPI is
`max(72, round(200*q/100))`; at the three exceptional qualities binary64
truncation yields one less than the rounded value (57, 113, 115 before
clamping); in particular quality 100 gives 200 DPI and quality 50 gives 100
DPI in both. -/
theorem c3_dpi_amended (q : Int) (h1 : 1 ≤ q) (h2 : q ≤ 100) :
    (¬(q = 29 ∨ q = 57 ∨ q = 58) →
      spreadDpi q = max 50 (round ((200 * (q : ℚ)) / 100)) ∧
      analyzeDpi q = max 72 (round ((200 * (q : ℚ)) / 100))) ∧
    ((q = 29 ∨ q = 57 ∨ q = 58) →
      spreadDpi q = max 50 (2 * q - 1) ∧ analyzeDpi q = max 72 (2 * q - 1)) ∧
    spreadDpi 100 = 200 ∧ analyzeDpi 100 = 200 ∧
    spreadDpi 50 = 100 ∧ analyzeDpi 50 = 100 := by
  have htab := rawDpi_eq_table q h1 h2
  have h100 := rawDpi_eq_table 100 (by norm_num) (by norm_num)
  have h50 := rawDpi_eq_table 50 (by norm_num) (by norm_num)
  rw [rawDpiTable] at h100 h50
  norm_num at h100 h50
  refine ⟨?_, ?_, ?_, ?_, ?_, ?_⟩
  · intro hq
    rw [round_two_hundredths q]
    have ht : rawDpiTable q = 2 * q := by rw [rawDpiTable, if_neg hq]
    rw [spreadDpi, analyzeDpi, htab, ht]
    constructor <;> omega
  · intro hq
    have ht : rawDpiTable q = 2 * q - 1 := by rw [rawDpiTable, if_pos hq]
    rw [spreadDpi, analyzeDpi, htab, ht]
    constructor <;> omega
  · rw [spreadDpi, h100]; decide
  · rw [analyzeDpi, h100]; decide
  · rw [spreadDpi, h50]; decide
  · rw [analyzeDpi, h50]; decide

/-- C3 witness: the amended theorem applied at qualities 30 and 29. -/
theorem c3_dpi_amended_witness :
    (spreadDpi 30 = max 50 (round ((200 * ((30 : Int) : ℚ)) / 100)) ∧
      analyzeDpi 30 = max 72 (round ((200 * ((30 : Int) : ℚ)) / 100))) ∧
    spreadDpi 29 = max 50 (2 * 29 - 1) ∧ analyzeDpi 29 = max 72 (2 * 29 - 1) :=
  ⟨(c3_dpi_amended 30 (by norm_num) (by norm_num)).1 (by norm_num),
   (c3_dpi_amended 29 (by norm_num) (by norm_num)).2.1 (by norm_num)⟩

/-- C4: the four WCAG compliance flags computed for a contrast ratio are
exactly the four threshold comparisons AA-normal ≥ 4.5, AA-large ≥ 3.0,
AAA-normal ≥ 7.0, AAA-large ≥ 4.5; hence a ratio of exactly 4.5 is
AA-normal-compliant and AAA-large-compliant but not AAA-normal-compliant. -/
theorem c4_wcag_thresholds (r : ℚ) :
    ((wcagComplianceOf r).aaNormalText = true ↔ r ≥ 4.5) ∧
    ((wcagComplianceOf r).aaLargeText = true ↔ r ≥ 3.0) ∧
    ((wcagComplianceOf r).aaaNormalText = true ↔ r ≥ 7.0) ∧
    ((wcagComplianceOf r).aaaLargeText = true ↔ r ≥ 4.5) ∧
    (wcagComplianceOf 4.5).aaNormalText = true ∧
    (wcagComplianceOf 4.5).aaaLargeText = true ∧
    (wcagComplianceOf 4.5).aaaNormalText = false := by
  refine ⟨?_, ?_, ?_, ?_, ?_, ?_, ?_⟩ <;>
    simp [wcagComplianceOf, decide_eq_true_iff]
  all_goals norm_num

/-- C4 witness: the threshold classification applied at the concrete ratios 4.5
and 5. -/
theorem c4_wcag_thresholds_witness :
    ((wcagComplianceOf 5).aaNormalText = true ↔ (5 : ℚ) ≥ 4.5) ∧
    (wcagComplianceOf 4.5).aaNormalText = true ∧
    (wcagComplianceOf 4.5).aaaLargeText = true ∧
    (wcagComplianceOf 4.5).aaaNormalText = false :=
  ⟨(c4_wcag_thresholds 5).1,
   (c4_wcag_thresholds 5).2.2.2.2.1,
   (c4_wcag_thresholds 5).2.2.2.2.2.1,
   (c4_wcag_thresholds 5).2.2.2.2.2.2⟩

/-- C2: for all input images and border width `b`, the composite canvas has
width `leftWidth + rightWidth + 3b` and height `max(leftHeight, rightHeight) +
2b`; the left image appears at offset `(b, b)`, the right image at offset
`(b + leftWidth + b, b)`, and every pixel outside the two pasted rectangles is
black. -/
theorem c2_spread_canvas_layout (l r : Img) (b : Nat) :
    (composeSpread l r b).width = l.width + r.width + 3 * b ∧
    (composeSpread l r b).height = max l.height r.height + 2 * b ∧
    (∀ x y, x < l.width → y < l.height →
      (composeSpread l r b).pixel (b + x) (b + y) = l.pixel x y) ∧
    (∀ x y, x < r.width → y < r.height →
      (composeSpread l r b).pixel (b + l.width + b + x) (b + y) = r.pixel x y) ∧
    (∀ x y, ¬(b ≤ x ∧ x < b + l.width ∧ b ≤ y ∧ y < b + l.height) →
      ¬(b + l.width + b ≤ x ∧ x < b + l.width + b + r.width ∧ b ≤ y ∧ y < b + r.height) →
      (composeSpread l r b).pixel x y = black) := by
  refine ⟨by simp [composeSpread]; omega, by simp [composeSpread]; omega, ?_, ?_, ?_⟩
  · intro x y hx hy
    simp only [composeSpread]
    rw [if_neg (by omega), if_pos (by omega)]
    rw [Nat.add_sub_cancel_left, Nat.add_sub_cancel_left]
  · intro x y hx hy
    simp only [composeSpread]
    rw [if_pos (by omega)]
    rw [Nat.add_sub_cancel_left, Nat.add_sub_cancel_left]
  · intro x y hL hR
    simp only [composeSpread]
    rw [if_neg (by omega), if_neg (by omega)]

/-- C2 witness: the layout theorem applied to two concrete images with border
width 2. -/
theorem c2_spread_canvas_layout_witness :
    (composeSpread imgA imgB 2).width = imgA.width + imgB.width + 3 * 2 ∧
    (composeSpread imgA imgB 2).pixel (2 + 0) (2 + 0) = imgA.pixel 0 0 ∧
    (composeSpread imgA imgB 2).pixel 0 0 = black :=
  ⟨(c2_spread_canvas_layout imgA imgB 2).1,
   (c2_spread_canvas_layout imgA imgB 2).2.2.1 0 0 (by decide) (by decide),
   (c2_spread_canvas_layout imgA imgB 2).2.2.2.2 0 0 (by decide) (by decide)⟩

/-- Helper: the page loop of the analyzer can only fail with a library
failure — never with a range or bounds error. -/
theorem analyzePages_error_is_library (doc : FitzDoc) (dpi : Int) (scale : ℚ) :
    ∀ ps e, analyzePages doc dpi scale ps = .error e → ∃ msg, e = .libraryFailure msg := by
  intro ps
  induction ps with
  | nil => intro e h; simp [analyzePages] at h
  | cons p rest ih =>
    intro e h
    rw [analyzePages] at h
    rcases hp : doc.pages[(p - 1).toNat]? with _ | pr
    · rw [hp] at h
      exact ⟨"page index out of range", (Except.error.injEq _ _ ▸ h).symm⟩
    · rcases pr with msg | page
      · rw [hp] at h
        exact ⟨msg, (Except.error.injEq _ _ ▸ h).symm⟩
      · rw [hp] at h
        rcases hr : analyzePages doc dpi scale rest with e2 | ok2
        · rw [hr] at h
          have he : e2 = e := Except.error.injEq _ _ ▸ h
          exact he ▸ ih e2 hr
        · rw [hr] at h
          simp at h

/-- C6: `analyze_page_contrast` fails with the invalid-range `ValueError`
whenever `leftPage > rightPage` (this check is decided first, before the
bounds check), fails with the out-of-bounds `IndexError` whenever the range is
not inverted but `leftPage < 1` or `rightPage` exceeds the page count, and for
every range satisfying both preconditions neither of these errors is
raised. -/
theorem c6_analyze_range_errors (doc : FitzDoc) (l r q : Int) :
    (l > r → analyze_page_contrast doc l r q = .error .invalidRange) ∧
    (l ≤ r → (l < 1 ∨ r > (doc.pages.length : Int)) →
      analyze_page_contrast doc l r q =
        .error (.pageOutOfBounds l r doc.pages.length)) ∧
    (1 ≤ l → l ≤ r → r ≤ (doc.pages.length : Int) →
      analyze_page_contrast doc l r q ≠ .error .invalidRange ∧
      ∀ a b : Int, ∀ n : Nat,
        analyze_page_contrast doc l r q ≠ .error (.pageOutOfBounds a b n)) := by
  refine ⟨?_, ?_, ?_⟩
  · intro h
    simp only [analyze_page_contrast]
    rw [if_pos h]
  · intro h1 h2
    simp only [analyze_page_contrast]
    rw [if_neg (by omega), if_pos h2]
  · intro h1 h2 h3
    simp only [analyze_page_contrast]
    rw [if_neg (by omega), if_neg (by omega)]
    constructor
    · intro hc
      obtain ⟨msg, hmsg⟩ := analyzePages_error_is_library doc _ _ _ _ hc
      simp at hmsg
    · intro a b n hc
      obtain ⟨msg, hmsg⟩ := analyzePages_error_is_library doc _ _ _ _ hc
      simp at hmsg

/-- C6 witness: the range checks applied to a concrete two-page document. -/
theorem c6_analyze_range_errors_witness :
    analyze_page_contrast fitzDocA 2 1 50 = .error .invalidRange ∧
    analyze_page_contrast fitzDocA 1 3 50 = .error (.pageOutOfBounds 1 3 2) ∧
    analyze_page_contrast fitzDocA 1 2 50 ≠ .error .invalidRange :=
  ⟨(c6_analyze_range_errors fitzDocA 2 1 50).1 (by norm_num),
   (c6_analyze_range_errors fitzDocA 1 3 50).2.1 (by norm_num)
     (by right; norm_num [fitzDocA]),
   ((c6_analyze_range_errors fitzDocA 1 2 50).2.2 (by norm_num) (by norm_num)
     (by norm_num [fitzDocA])).1⟩

/-- C7: `create_spread_image` raises the insufficient-pages `ValueError`
whenever fewer than two pages were rasterized for the requested range, and in
that case no composite image is produced; in particular on a 1-page document
the range (1, 1) rasterizes only one page and always errors. -/
theorem c7_insufficient_pages (doc : PdfDoc) (l r : Int) (b : Nat) (q : Int) :
    ((convertFromPath doc l r (spreadDpi q)).length < 2 →
      create_spread_image doc l r b q = .error (.insufficientPages l r)) ∧
    (doc.pageCount = 1 →
      create_spread_image doc 1 1 b q = .error (.insufficientPages 1 1)) := by
  constructor
  · intro h
    simp only [create_spread_image]
    rcases hc : convertFromPath doc l r (spreadDpi q) with _ | ⟨p0, rest0⟩
    · rfl
    · rcases rest0 with _ | ⟨p1, rest⟩
      · rfl
      · exfalso
        rw [hc] at h
        simp at h
        omega
  · intro h
    have hc : convertFromPath doc 1 1 (spreadDpi q) = [doc.render 1 (spreadDpi q)] := by
      rw [convertFromPath, h]
      have hr1 : List.range 1 = [0] := rfl
      norm_num [hr1]
    simp only [create_spread_image]
    rw [hc]

/-- C7 witness: a concrete 1-page document with `view_spread(1, 1)`
parameters. -/
theorem c7_insufficient_pages_witness :
    create_spread_image pdfDocOne 1 1 2 50 = .error (.insufficientPages 1 1) :=
  (c7_insufficient_pages pdfDocOne 1 1 2 50).2 rfl

/-- C10: whenever at least two pages are rasterized (`leftPage ≥ 1` and
`leftPage + 1 ≤ min(rightPage, pageCount)`), the composite is built from the
first two rasterized pages — pages `leftPage` and `leftPage + 1` — regardless
of how much larger `rightPage` is, while the `handle_view_spread` caption
reports the full requested range `leftPage-rightPage`. -/
theorem c10_composites_first_two_pages (doc : PdfDoc) (l r : Int) (b : Nat) (q : Int)
    (h1 : 1 ≤ l) (h2 : l + 1 ≤ min r (doc.pageCount : Int)) :
    create_spread_image doc l r b q =
      .ok (composeSpread (doc.render l (spreadDpi q)) (doc.render (l + 1) (spreadDpi q)) b) ∧
    viewSpreadCaption l r =
      "Double-page spread: pages " ++ toString l ++ "-" ++ toString r := by
  refine ⟨?_, rfl⟩
  have hlo : max l 1 = l := max_eq_left h1
  have h0 : (convertFromPath doc l r (spreadDpi q))[0]? =
      some (doc.render l (spreadDpi q)) := by
    rw [convertFromPath, List.getElem?_map, List.getElem?_range]
    · simp [hlo]
    · generalize min r (doc.pageCount : Int) = m at h2 ⊢
      omega
  have h1' : (convertFromPath doc l r (spreadDpi q))[1]? =
      some (doc.render (l + 1) (spreadDpi q)) := by
    rw [convertFromPath, List.getElem?_map, List.getElem?_range]
    · simp [hlo]
    · generalize min r (doc.pageCount : Int) = m at h2 ⊢
      omega
  rcases hc : convertFromPath doc l r (spreadDpi q) with _ | ⟨p0, rest0⟩
  · rw [hc] at h0; simp at h0
  · rcases rest0 with _ | ⟨p1, rest⟩
    · rw [hc] at h1'; simp at h1'
    · rw [hc] at h0 h1'
      simp only [List.getElem?_cons_zero, List.getElem?_cons_succ, Option.some.injEq] at h0 h1'
      simp only [create_spread_image]
      rw [hc, h0, h1']

/-- Helper: a retained span yields a region numbered `counter + 1` whose pixel
box is at least 2 pixels wide and 2 pixels tall. -/
theorem processSpan_eq_some (contrast : RGB → RGB → ℚ) (page : PageData) (scale : ℚ)
    (k : Nat) (span : Span) (reg : Region)
    (h : processSpan contrast page scale k span = some reg) :
    reg.regionIndex = k + 1 ∧
      2 ≤ reg.bboxPixels.right - reg.bboxPixels.left ∧
      2 ≤ reg.bboxPixels.bottom - reg.bboxPixels.top := by
  rcases hb : span.bbox with _ | ⟨x0, y0, x1, y1⟩
  · rw [processSpan, hb] at h
    by_cases ht : pyStrip span.text = ""
    · rw [if_pos ht] at h; simp at h
    · rw [if_neg ht] at h; simp at h
  · rw [processSpan, hb] at h
    by_cases ht : pyStrip span.text = ""
    · rw [if_pos ht] at h; simp at h
    · rw [if_neg ht] at h
      dsimp only at h
      by_cases hwh : x1 - x0 ≤ 0 ∨ y1 - y0 ≤ 0
      · rw [if_pos hwh] at h; simp at h
      · rw [if_neg hwh] at h
        by_cases hsz :
            (pixelBox page.imageWidth page.imageHeight scale x0 y0 x1 y1).right -
                (pixelBox page.imageWidth page.imageHeight scale x0 y0 x1 y1).left < 2 ∨
              (pixelBox page.imageWidth page.imageHeight scale x0 y0 x1 y1).bottom -
                (pixelBox page.imageWidth page.imageHeight scale x0 y0 x1 y1).top < 2
        · rw [if_pos hsz] at h; simp at h
        · rw [if_neg hsz] at h
          injection h with h2
          subst h2
          refine ⟨rfl, ?_, ?_⟩ <;> (dsimp only; omega)

/-- Helper: a span that reaches the pixel-box step is skipped exactly when that
box is under 2 pixels wide or under 2 pixels tall. -/
theorem processSpan_none_iff (contrast : RGB → RGB → ℚ) (page : PageData) (scale : ℚ)
    (k : Nat) (span : Span) (x0 y0 x1 y1 : ℚ)
    (ht : pyStrip span.text ≠ "") (hb : span.bbox = some (x0, y0, x1, y1))
    (hw : 0 < x1 - x0) (hh : 0 < y1 - y0) :
    processSpan contrast page scale k span = none ↔
      (pixelBox page.imageWidth page.imageHeight scale x0 y0 x1 y1).right -
          (pixelBox page.imageWidth page.imageHeight scale x0 y0 x1 y1).left < 2 ∨
        (pixelBox page.imageWidth page.imageHeight scale x0 y0 x1 y1).bottom -
          (pixelBox page.imageWidth page.imageHeight scale x0 y0 x1 y1).top < 2 := by
  rw [processSpan, hb, if_neg ht]
  dsimp only
  rw [if_neg (by simp only [not_or, not_le]; exact ⟨hw, hh⟩)]
  by_cases hsz :
      (pixelBox page.imageWidth page.imageHeight scale x0 y0 x1 y1).right -
          (pixelBox page.imageWidth page.imageHeight scale x0 y0 x1 y1).left < 2 ∨
        (pixelBox page.imageWidth page.imageHeight scale x0 y0 x1 y1).bottom -
          (pixelBox page.imageWidth page.imageHeight scale x0 y0 x1 y1).top < 2
  · rw [if_pos hsz]; simpa using hsz
  · rw [if_neg hsz]; simpa using hsz

/-- Helper: invariants of the per-page span fold — every retained region has a
pixel box at least 2 pixels in both dimensions, and the retained regions are
numbered 1, 2, ... in order. -/
theorem pageRegions_foldl_inv (contrast : RGB → RGB → ℚ) (page : PageData) (scale : ℚ)
    (spans : List Span) (acc : List Region)
    (h1 : ∀ reg ∈ acc, 2 ≤ reg.bboxPixels.right - reg.bboxPixels.left ∧
        2 ≤ reg.bboxPixels.bottom - reg.bboxPixels.top)
    (h2 : acc.map Region.regionIndex = List.range' 1 acc.length) :
    (∀ reg ∈ spans.foldl (accumSpan contrast page scale) acc,
        2 ≤ reg.bboxPixels.right - reg.bboxPixels.left ∧
        2 ≤ reg.bboxPixels.bottom - reg.bboxPixels.top) ∧
      (spans.foldl (accumSpan contrast page scale) acc).map Region.regionIndex =
        List.range' 1 (spans.foldl (accumSpan contrast page scale) acc).length := by
  induction spans generalizing acc with
  | nil => exact ⟨h1, h2⟩
  | cons sp rest ih =>
    simp only [List.foldl_cons]
    rcases hps : processSpan contrast page scale acc.length sp with _ | r0
    · have hstep : accumSpan contrast page scale acc sp = acc := by
        rw [accumSpan, hps]
      rw [hstep]
      exact ih acc h1 h2
    · have hstep : accumSpan contrast page scale acc sp = acc ++ [r0] := by
        rw [accumSpan, hps]
      rw [hstep]
      have hr0 := processSpan_eq_some contrast page scale acc.length sp r0 hps
      apply ih
      · intro reg hreg
        rcases List.mem_append.mp hreg with hin | hin
        · exact h1 reg hin
        · rw [List.mem_singleton.mp hin]
          exact ⟨hr0.2.1, hr0.2.2⟩
      · rw [List.map_append, h2, List.length_append]
        simp only [List.map_cons, List.map_nil, List.length_cons, List.length_nil]
        rw [hr0.1, List.range'_1_concat, Nat.add_comm 1 acc.length]

/-- C8: a span that reaches the pixel-mapping step (non-blank text, a present
bounding box with positive point-space extent) is skipped, without error,
exactly when its padded, scaled and clamped pixel box has width or height
below 2 (the §4.2 threshold; §3's "positive" understates it); consequently
every region a page analysis retains has a pixel box at least 2 pixels in both
dimensions, and retained regions are numbered sequentially from 1 in document
order. -/
theorem c8_span_skip_and_region_invariants :
    (∀ (contrast : RGB → RGB → ℚ) (page : PageData) (scale : ℚ) (k : Nat) (span : Span)
        (x0 y0 x1 y1 : ℚ), pyStrip span.text ≠ "" → span.bbox = some (x0, y0, x1, y1) →
        0 < x1 - x0 → 0 < y1 - y0 →
        (processSpan contrast page scale k span = none ↔
          (pixelBox page.imageWidth page.imageHeight scale x0 y0 x1 y1).right -
              (pixelBox page.imageWidth page.imageHeight scale x0 y0 x1 y1).left < 2 ∨
            (pixelBox page.imageWidth page.imageHeight scale x0 y0 x1 y1).bottom -
              (pixelBox page.imageWidth page.imageHeight scale x0 y0 x1 y1).top < 2)) ∧
    (∀ (contrast : RGB → RGB → ℚ) (page : PageData) (scale : ℚ),
      (∀ reg ∈ pageRegions contrast page scale,
          2 ≤ reg.bboxPixels.right - reg.bboxPixels.left ∧
          2 ≤ reg.bboxPixels.bottom - reg.bboxPixels.top) ∧
        (pageRegions contrast page scale).map Region.regionIndex =
          List.range' 1 (pageRegions contrast page scale).length) :=
  ⟨processSpan_none_iff,
   fun contrast page scale =>
     pageRegions_foldl_inv contrast page scale (spansOf page) []
       (by intro reg hreg; simp at hreg) rfl⟩

/-- C8 witness: the skip criterion and the numbering invariant applied to a
concrete page holding one span. -/
theorem c8_span_skip_witness :
    (processSpan (fun _ _ => (2 : ℚ)) pageA (100 / 72) 0 spanA = none ↔
      (pixelBox pageA.imageWidth pageA.imageHeight (100 / 72) 0 0 10 5).right -
          (pixelBox pageA.imageWidth pageA.imageHeight (100 / 72) 0 0 10 5).left < 2 ∨
        (pixelBox pageA.imageWidth pageA.imageHeight (100 / 72) 0 0 10 5).bottom -
          (pixelBox pageA.imageWidth pageA.imageHeight (100 / 72) 0 0 10 5).top < 2) ∧
    (pageRegions (fun _ _ => (2 : ℚ)) pageA (100 / 72)).map Region.regionIndex =
      List.range' 1 (pageRegions (fun _ _ => (2 : ℚ)) pageA (100 / 72)).length :=
  ⟨c8_span_skip_and_region_invariants.1 (fun _ _ => (2 : ℚ)) pageA (100 / 72) 0 spanA
      0 0 10 5 (by decide) rfl (by norm_num) (by norm_num),
   (c8_span_skip_and_region_invariants.2 (fun _ _ => (2 : ℚ)) pageA (100 / 72)).2⟩

/-- Helper: one inner report step appends the page's issue entry (if any) and
adds its region count. -/
theorem reportPageStep_issues (acc : WcagReport) (pa : PageAnalysis) :
    (reportPageStep acc pa).pagesWithIssues =
      acc.pagesWithIssues ++ pageIssueEntry pa ∧
    (reportPageStep acc pa).nonCompliantRegionsCount =
      acc.nonCompliantRegionsCount +
        ((pageIssueEntry pa).map PageIssues.regionsCount).sum := by
  rw [reportPageStep, pageIssueEntry]
  by_cases hempty : ((pa.regions.filter regionFails).map toReportRegion).isEmpty
  · rw [if_pos hempty, if_pos hempty]; simp
  · rw [if_neg hempty, if_neg hempty]; simp

/-- Helper: the inner page fold appends exactly the pages' issue entries. -/
theorem reportPageStep_foldl (pages : List PageAnalysis) (acc : WcagReport) :
    (pages.foldl reportPageStep acc).pagesWithIssues =
      acc.pagesWithIssues ++ pages.flatMap pageIssueEntry ∧
    (pages.foldl reportPageStep acc).nonCompliantRegionsCount =
      acc.nonCompliantRegionsCount +
        ((pages.flatMap pageIssueEntry).map PageIssues.regionsCount).sum := by
  induction pages generalizing acc with
  | nil => simp
  | cons pa rest ih =>
    simp only [List.foldl_cons, List.flatMap_cons]
    have h1 := reportPageStep_issues acc pa
    have h2 := ih (reportPageStep acc pa)
    refine ⟨?_, ?_⟩
    · rw [h2.1, h1.1, List.append_assoc]
    · rw [h2.2, h1.2, List.map_append, List.sum_append]
      omega

/-- Helper: one pair step of the report appends exactly that pair's
contribution (nothing when the analyzer failed on the pair). -/
theorem reportStepPair_issues (doc : FitzDoc) (q : Int) (acc : WcagReport)
    (pr : Int × Int) :
    (reportStepPair doc q acc pr).pagesWithIssues =
      acc.pagesWithIssues ++ pairIssues doc q pr ∧
    (reportStepPair doc q acc pr).nonCompliantRegionsCount =
      acc.nonCompliantRegionsCount +
        ((pairIssues doc q pr).map PageIssues.regionsCount).sum := by
  rw [reportStepPair, pairIssues]
  rcases ha : analyze_page_contrast doc pr.1 pr.2 q with e | pages
  · simp
  · dsimp only
    exact reportPageStep_foldl pages
      { acc with pagesAnalyzed := acc.pagesAnalyzed + (pr.2 - pr.1 + 1) }

/-- Helper: the pair fold of the report accumulates exactly the concatenation
of the pairs' contributions. -/
theorem reportFold_issues (doc : FitzDoc) (q : Int) (prs : List (Int × Int))
    (acc : WcagReport) :
    (prs.foldl (reportStepPair doc q) acc).pagesWithIssues =
      acc.pagesWithIssues ++ prs.flatMap (pairIssues doc q) ∧
    (prs.foldl (reportStepPair doc q) acc).nonCompliantRegionsCount =
      acc.nonCompliantRegionsCount +
        ((prs.flatMap (pairIssues doc q)).map PageIssues.regionsCount).sum := by
  induction prs generalizing acc with
  | nil => simp
  | cons pr rest ih =>
    simp only [List.foldl_cons, List.flatMap_cons]
    have h1 := reportStepPair_issues doc q acc pr
    have h2 := ih (reportStepPair doc q acc pr)
    refine ⟨?_, ?_⟩
    · rw [h2.1, h1.1, List.append_assoc]
    · rw [h2.2, h1.2, List.map_append, List.sum_append]
      omega

/-- Helper: the sort comparator of the report is transitive. -/
theorem pageIssues_le_trans : ∀ a b c : PageIssues,
    (fun a b : PageIssues => decide (a.pageNumber ≤ b.pageNumber)) a b →
    (fun a b : PageIssues => decide (a.pageNumber ≤ b.pageNumber)) b c →
    (fun a b : PageIssues => decide (a.pageNumber ≤ b.pageNumber)) a c := by
  intro a b c h1 h2
  simp only [decide_eq_true_eq] at h1 h2 ⊢
  omega

/-- Helper: the sort comparator of the report is total. -/
theorem pageIssues_le_total : ∀ a b : PageIssues,
    ((fun a b : PageIssues => decide (a.pageNumber ≤ b.pageNumber)) a b ||
      (fun a b : PageIssues => decide (a.pageNumber ≤ b.pageNumber)) b a) := by
  intro a b
  simp only [Bool.or_eq_true, decide_eq_true_eq]
  omega

/-- C5: the report walks the document in the consecutive page pairs the spec
describes (final singleton when the remaining range is odd); a region is
recorded as non-compliant exactly when it fails at least one of the four WCAG
thresholds; `pages_with_issues` is sorted ascending by page number; and the
total `non_compliant_regions_count` equals the sum of `regions_count` over the
recorded pages. -/
theorem c5_report_invariants (doc : FitzDoc) (s q : Int) :
    reportPairs s doc.pages.length = specPairs s doc.pages.length ∧
    (∀ reg : Region, regionFails reg = true ↔
      ¬(reg.wcag.aaNormalText = true ∧ reg.wcag.aaLargeText = true ∧
        reg.wcag.aaaNormalText = true ∧ reg.wcag.aaaLargeText = true)) ∧
    (∀ pa : PageAnalysis, ∀ e ∈ pageIssueEntry pa,
      e.regions = (pa.regions.filter regionFails).map toReportRegion ∧
      e.regionsCount = e.regions.length ∧ e.pageNumber = pa.pageNumber) ∧
    (handle_get_wcag_report doc s q).pagesWithIssues.Pairwise
      (fun a b => a.pageNumber ≤ b.pageNumber) ∧
    (handle_get_wcag_report doc s q).nonCompliantRegionsCount =
      (((handle_get_wcag_report doc s q).pagesWithIssues).map
        PageIssues.regionsCount).sum := by
  refine ⟨?_, ?_, ?_, ?_, ?_⟩
  · rw [reportPairs, specPairs]
    apply List.map_congr_left
    intro l hl
    simp only [rangeStep2, List.mem_map, List.mem_range] at hl
    obtain ⟨i, hi, rfl⟩ := hl
    have hb : s + 2 * (i : Int) ≤ (doc.pages.length : Int) := by omega
    split_ifs with hcase
    · simp [min_eq_left hcase]
    · have hmin : min (s + 2 * (i : Int) + 1) (doc.pages.length : Int) =
          (doc.pages.length : Int) := min_eq_right (by omega)
      rw [hmin]
      have : (doc.pages.length : Int) = s + 2 * (i : Int) := by omega
      rw [this]
  · intro reg
    rcases reg with ⟨i, t, bp, bx, tc, bc, cr, wc⟩
    rcases wc with ⟨a, b, c, d⟩
    cases a <;> cases b <;> cases c <;> cases d <;> simp [regionFails]
  · intro pa e he
    rw [pageIssueEntry] at he
    by_cases hempty : ((pa.regions.filter regionFails).map toReportRegion).isEmpty
    · rw [if_pos hempty] at he; simp at he
    · rw [if_neg hempty] at he
      rw [List.mem_singleton.mp he]
      exact ⟨rfl, rfl, rfl⟩
  · simp only [handle_get_wcag_report]
    have hs := List.sorted_mergeSort pageIssues_le_trans pageIssues_le_total
      (((reportPairs s doc.pages.length).foldl (reportStepPair doc q)
        { totalPages := doc.pages.length, startPage := s, pagesAnalyzed := 0
        , nonCompliantRegionsCount := 0, pagesWithIssues := [] }).pagesWithIssues)
    exact hs.imp (fun h => by simpa using h)
  · simp only [handle_get_wcag_report]
    have hf := reportFold_issues doc q (reportPairs s doc.pages.length)
      { totalPages := doc.pages.length, startPage := s, pagesAnalyzed := 0
      , nonCompliantRegionsCount := 0, pagesWithIssues := [] }
    have hperm :=
      (List.mergeSort_perm
        (((reportPairs s doc.pages.length).foldl (reportStepPair doc q)
          { totalPages := doc.pages.length, startPage := s, pagesAnalyzed := 0
          , nonCompliantRegionsCount := 0, pagesWithIssues := [] }).pagesWithIssues)
        (fun a b => decide (a.pageNumber ≤ b.pageNumber))).map PageIssues.regionsCount
    rw [hperm.sum_eq, hf.2, hf.1]
    simp

/-- C5 witness: the invariants applied to a concrete two-page document and a
concrete failing region. -/
theorem c5_report_invariants_witness :
    reportPairs 1 fitzDocA.pages.length = specPairs 1 fitzDocA.pages.length ∧
    (regionFails regionA = true ↔
      ¬(regionA.wcag.aaNormalText = true ∧ regionA.wcag.aaLargeText = true ∧
        regionA.wcag.aaaNormalText = true ∧ regionA.wcag.aaaLargeText = true)) ∧
    ((⟨1, 1, [toReportRegion regionA]⟩ : PageIssues).regions =
        (paA.regions.filter regionFails).map toReportRegion ∧
      (⟨1, 1, [toReportRegion regionA]⟩ : PageIssues).regionsCount =
        (⟨1, 1, [toReportRegion regionA]⟩ : PageIssues).regions.length ∧
      (⟨1, 1, [toReportRegion regionA]⟩ : PageIssues).pageNumber = paA.pageNumber) ∧
    (handle_get_wcag_report fitzDocA 1 50).pagesWithIssues.Pairwise
      (fun a b => a.pageNumber ≤ b.pageNumber) :=
  ⟨(c5_report_invariants fitzDocA 1 50).1,
   (c5_report_invariants fitzDocA 1 50).2.1 regionA,
   (c5_report_invariants fitzDocA 1 50).2.2.1 paA ⟨1, 1, [toReportRegion regionA]⟩
     (by simp [pageIssueEntry, paA, regionFails, regionA]),
   (c5_report_invariants fitzDocA 1 50).2.2.2.1⟩

/-- C9: the report never fails as a whole: its entries are exactly the sorted
concatenation of the per-pair contributions, where a pair on which the
analyzer raised any error contributes nothing (it is skipped) while every
other pair contributes its results; the total count likewise sums only the
successful pairs. -/
theorem c9_pair_failure_skipped (doc : FitzDoc) (s q : Int) :
    (handle_get_wcag_report doc s q).pagesWithIssues =
      ((reportPairs s doc.pages.length).flatMap (pairIssues doc q)).mergeSort
        (fun a b => a.pageNumber ≤ b.pageNumber) ∧
    (∀ pr : Int × Int, ∀ e : AnalyzeError,
      analyze_page_contrast doc pr.1 pr.2 q = .error e → pairIssues doc q pr = []) ∧
    (handle_get_wcag_report doc s q).nonCompliantRegionsCount =
      (((reportPairs s doc.pages.length).flatMap (pairIssues doc q)).map
        PageIssues.regionsCount).sum := by
  have hf := reportFold_issues doc q (reportPairs s doc.pages.length)
    { totalPages := doc.pages.length, startPage := s, pagesAnalyzed := 0
    , nonCompliantRegionsCount := 0, pagesWithIssues := [] }
  refine ⟨?_, ?_, ?_⟩
  · simp only [handle_get_wcag_report]
    rw [hf.1]
    simp
  · intro pr e he
    rw [pairIssues, he]
  · simp only [handle_get_wcag_report]
    rw [hf.2]
    simp

/-- C9 witness: on a concrete document whose second page fails to rasterize,
the pair (1, 2) contributes nothing and the report is still produced from the
remaining pairs. -/
theorem c9_pair_failure_skipped_witness :
    pairIssues fitzDocB 50 (1, 2) = [] ∧
    (handle_get_wcag_report fitzDocB 1 50).pagesWithIssues =
      ((reportPairs 1 fitzDocB.pages.length).flatMap (pairIssues fitzDocB 50)).mergeSort
        (fun a b => a.pageNumber ≤ b.pageNumber) :=
  ⟨(c9_pair_failure_skipped fitzDocB 1 50).2.1 (1, 2)
      (.libraryFailure "rasterization failed") rfl,
   (c9_pair_failure_skipped fitzDocB 1 50).1⟩

/-- C10 witness: on a concrete five-page document, requesting the spread (1, 5)
composites pages 1 and 2, while the caption reports pages 1-5. -/
theorem c10_composites_first_two_pages_witness :
    create_spread_image pdfDocFive 1 5 2 50 =
      .ok (composeSpread (pdfDocFive.render 1 (spreadDpi 50))
        (pdfDocFive.render 2 (spreadDpi 50)) 2) ∧
    viewSpreadCaption 1 5 =
      "Double-page spread: pages " ++ toString (1 : Int) ++ "-" ++ toString (5 : Int) :=
  ⟨(c10_composites_first_two_pages pdfDocFive 1 5 2 50 (by norm_num)
      (by norm_num [pdfDocFive])).1,
   (c10_composites_first_two_pages pdfDocFive 1 5 2 50 (by norm_num)
      (by norm_num [pdfDocFive])).2⟩

end PdfSpreadViewer
